import Mathlib

/-!
Shallow embedding of the dwdown filename-filtering and transfer engine
(src/dwdown/utils/file_handling.py, utils/os_handling.py,
utils/date_time_utilis.py, download/os_download.py,
download/forecast_download.py, download/downloader.py,
upload/os_upload.py), together with theorems settling the frozen claims
about it.  Python strings are modelled as Lean strings (operations work on
the character lists), Python exceptions as an explicit error type, and the
network / filesystem side effects as oracle functions supplied as
arguments.
-/

namespace DW

/-- Python exception values relevant to the embedded code. -/
inductive PyErr where
  | typeError (msg : String)
  | valueError (msg : String)
  | ioError (msg : String)
deriving DecidableEq, Repr

/-- Message of the TypeError raised by iterating over None
(any(ts in filename for ts in timesteps) with timesteps = None). -/
def iterNoneMsg : String := "argument of type NoneType is not iterable"

/-- Message of the TypeError raised by calling DateHandler._process_timesteps
with the keyword argument include_pattern, which its signature does not
accept. -/
def kwargMsg : String :=
  "_process_timesteps got an unexpected keyword argument include_pattern"

/-- Python membership test `needle in hay` on strings: substring test,
on character lists. -/
def charInfix (needle : List Char) : List Char → Bool
  | [] => needle.isEmpty
  | c :: cs => needle.isPrefixOf (c :: cs) || charInfix needle cs

/-- Python `needle in hay` for strings. -/
def pyIn (needle hay : String) : Bool := charInfix needle.toList hay.toList

/-- Python str.startswith. -/
def pyStartsWith (s p : String) : Bool := p.toList.isPrefixOf s.toList

/-- Python str.endswith. -/
def pyEndsWith (s p : String) : Bool := p.toList.isSuffixOf s.toList

/-- Python str.lower (ASCII, which is all the code uses). -/
def pyLower (s : String) : String := String.mk (s.toList.map Char.toLower)

/-- Split a character list on a separator character, keeping empty pieces,
like Python str.split(sep). -/
def splitOnChar (c : Char) : List Char → List (List Char)
  | [] => [[]]
  | x :: xs =>
    let r := splitOnChar c xs
    if x = c then [] :: r
    else
      match r with
      | h :: t => (x :: h) :: t
      | [] => [[x]]

/-- Join character lists with a separator character (str.join). -/
def joinWithChar (c : Char) : List (List Char) → List Char
  | [] => []
  | [x] => x
  | x :: xs => x ++ c :: joinWithChar c xs

/-- Index one past the last slash of a path (Python p.rfind(sep) + 1,
0 when there is no slash). -/
def lastSlashIdxP1 (cs : List Char) : Nat :=
  match cs.reverse.findIdx? (fun c => c = '/') with
  | none => 0
  | some j => cs.length - j

/-- Drop trailing slashes (str.rstrip applied with the separator). -/
def rstripSlash (cs : List Char) : List Char :=
  ((cs.reverse).dropWhile (fun c => c = '/')).reverse

/-- posixpath.split: split a path into (head, tail) around the final
slash; the head keeps no trailing slashes unless it is all slashes. -/
def pySplitPath (p : String) : String × String :=
  let cs := p.toList
  let i := lastSlashIdxP1 cs
  let head := cs.take i
  let tail := cs.drop i
  let head2 :=
    if head ≠ [] ∧ head.any (fun c => c ≠ '/') then rstripSlash head else head
  (String.mk head2, String.mk tail)

/-- os.path.dirname. -/
def pyDirname (p : String) : String := (pySplitPath p).1

/-- os.path.basename. -/
def pyBasename (p : String) : String := (pySplitPath p).2

/-- posixpath.normpath: collapse repeated separators and up-level
references in a path string. -/
def normPath (p : String) : String :=
  let cs := p.toList
  if cs = [] then "."
  else
    let initialSlashes : Nat :=
      if cs.take 2 = ['/', '/'] ∧ cs.take 3 ≠ ['/', '/', '/'] then 2
      else if cs.take 1 = ['/'] then 1 else 0
    let comps := splitOnChar '/' cs
    let newComps := comps.foldl (fun acc comp =>
      if comp = [] ∨ comp = ['.'] then acc
      else if comp ≠ ['.', '.'] ∨ (initialSlashes = 0 ∧ acc = [])
          ∨ (acc ≠ [] ∧ acc.getLast? = some ['.', '.']) then acc ++ [comp]
      else if acc ≠ [] then acc.dropLast
      else acc) []
    let joined := List.replicate initialSlashes '/' ++ joinWithChar '/' newComps
    if joined = [] then "." else String.mk joined

/-- Category of a file: lower-cased basename of the parent directory
(os.path.basename(os.path.dirname(filename)).lower()). -/
def categoryOf (filename : String) : String :=
  pyLower (pyBasename (pyDirname filename))

/-- A Python argument that may be a single string, a list of strings, or
None, as accepted by Utilities._string_to_list. -/
inductive StrOrList where
  | str (s : String)
  | list (xs : List String)
  | noneV
deriving DecidableEq, Repr

/-- Utilities._string_to_list (general_utilis.py), non-flatten path: a
string becomes a singleton list, a list is returned as is, anything else
(None included) becomes the empty list. -/
def stringToList : StrOrList → List String
  | .str s => [s]
  | .list xs => xs
  | .noneV => []

/-- FileHandler._switchable_pattern_check (file_handling.py): all patterns
must occur as substrings when useAll, otherwise at least one must. -/
def switchablePatternCheck (filename : String) (patterns : List String)
    (useAll : Bool) : Bool :=
  if useAll then patterns.all (fun p => pyIn p filename)
  else patterns.any (fun p => pyIn p filename)

/-- FileHandler._mock_time_steps (file_handling.py): True when the mock
flag is set, otherwise any(ts in filename for ts in timesteps), which
raises a TypeError when timesteps is None. -/
def mockTimeSteps (filename : String) (timesteps : Option (List String))
    (mock : Bool) : Except PyErr Bool :=
  if mock then .ok true
  else
    match timesteps with
    | none => .error (.typeError iterNoneMsg)
    | some ts => .ok (ts.any (fun t => pyIn t filename))

/-- The per-filename conjunction evaluated by the list comprehension of
FileHandler._simple_filename_filter, with the short-circuit order of the
source (the exclude check runs only after the timestep check succeeded). -/
def simpleFilterOne (pre suf : String) (includeL excludeL : List String)
    (timesteps : Option (List String)) (useAll mock : Bool)
    (filename : String) : Except PyErr Bool :=
  if pyStartsWith filename pre ∧ pyEndsWith filename suf
      ∧ switchablePatternCheck filename includeL useAll then
    match mockTimeSteps filename timesteps mock with
    | .error e => .error e
    | .ok true => .ok (!(excludeL.any (fun p => pyIn p filename)))
    | .ok false => .ok false
  else .ok false

/-- A Python list comprehension filtering by a predicate that may raise:
the first raised exception aborts the whole comprehension. -/
def exceptFilter (f : α → Except PyErr Bool) : List α → Except PyErr (List α)
  | [] => .ok []
  | x :: xs =>
    match f x with
    | .error e => .error e
    | .ok b =>
      match exceptFilter f xs with
      | .error e => .error e
      | .ok r => .ok (if b then x :: r else r)

/-- FileHandler._simple_filename_filter (file_handling.py).  Arguments
keep the order and defaults of the source; prefix and suffix are optional
strings (the source replaces falsy values by the empty string), the three
pattern arguments go through _string_to_list, and the bypass extension
runs only when the resulting skip list is non-empty (Python truthiness).
The completion order of the comprehension is the list order of the
(normalized) input. -/
def simpleFilenameFilter (filenames : List String)
    (pre suf : Option String)
    (includePattern excludePattern skipVars : StrOrList)
    (timesteps : Option (List String))
    (normP useAll mock : Bool) : Except PyErr (List String) :=
  let includeL := stringToList includePattern
  let excludeL := stringToList excludePattern
  let skipL := stringToList skipVars
  let preS := pre.getD ""
  let sufS := suf.getD ""
  let fns := if normP then filenames.map normPath else filenames
  match exceptFilter
      (simpleFilterOne preS sufS includeL excludeL timesteps useAll mock)
      fns with
  | .error e => .error e
  | .ok filtered =>
    if skipL ≠ [] then
      let targetVars := skipL.map pyLower
      .ok (filtered ++ fns.filter (fun f => targetVars.contains (categoryOf f)))
    else .ok filtered

/-- The pure value of the per-filename conjunction of
_simple_filename_filter when the timestep list is present (some ts), in
which case no exception can occur: prefix, suffix and include checks,
then the timestep check (bypassed by mock), then the exclude check. -/
def simplePassB (pre suf : String) (includeL excludeL ts : List String)
    (useAll mock : Bool) (filename : String) : Bool :=
  if pyStartsWith filename pre ∧ pyEndsWith filename suf
      ∧ switchablePatternCheck filename includeL useAll then
    (if mock then true else ts.any (fun t => pyIn t filename)) &&
      !(excludeL.any (fun p => pyIn p filename))
  else false

/-- Parse a run of ASCII digit characters as a natural number (int() of a
digit string; leading zeros are accepted). -/
def digitsToNat (ds : List Char) : Nat :=
  ds.foldl (fun a c => a * 10 + (c.toNat - 48)) 0

/-- Try to match the regex `_([0-9]+)_var\.` at the start of cs, returning
the parsed numeric group.  A greedy maximal digit run followed by the
required underscore is equivalent to the backtracking regex, because no
shorter digit run can be followed by an underscore. -/
def matchTagAt (cs : List Char) (var : List Char) : Option Nat :=
  match cs with
  | '_' :: rest =>
    let ds := rest.takeWhile Char.isDigit
    let rest2 := rest.dropWhile Char.isDigit
    if ds ≠ [] then
      match rest2 with
      | '_' :: rest3 =>
        if var.isPrefixOf rest3 ∧ (rest3.drop var.length).head? = some '.' then
          some (digitsToNat ds)
        else none
      | _ => none
    else none
  | _ => none

/-- re.search of `_([0-9]+)_var\.` over a character list: leftmost match
wins. -/
def searchTag (cs : List Char) (var : List Char) : Option Nat :=
  match cs with
  | [] => none
  | _ :: rest =>
    match matchTagAt cs var with
    | some n => some n
    | none => searchTag rest var

/-- The numeric-tag search of FileHandler._advanced_filename_filter:
re.search(rf"_([0-9]+)_\x7bre.escape(variable_folder)\x7d\.",
file_name.lower()). -/
def searchTagIn (fileName : String) (variableFolder : String) : Option Nat :=
  searchTag (pyLower fileName).toList variableFolder.toList

/-- Lookup in a Python dict built from an association list by
comprehension: a later binding for the same key overwrites an earlier
one. -/
def pyDictLookup (assoc : List (String × List Int)) (k : String) :
    Option (List Int) :=
  match assoc.reverse.find? (fun kv => kv.1 == k) with
  | some kv => some kv.2
  | none => none

/-- Whether a file hits a pattern constraint in the patterns-only case of
the advanced filter: its category is a key of the (lowered) map, the
numeric tag parses, and the tag is in the constrained set. -/
def advPatternHit (patternsL : List (String × List Int)) (filePath : String) :
    Bool :=
  let dirPath := pyDirname filePath
  let fileName := pyBasename filePath
  let variableFolder := pyLower (pyBasename dirPath)
  match pyDictLookup patternsL variableFolder with
  | some tags =>
    match searchTagIn fileName variableFolder with
    | some n => tags.contains (n : Int)
    | none => false
  | none => false

/-- What the patterns-only branch (Case 1) of
FileHandler._advanced_filename_filter appends for one file: the file once
more when its pattern constraint matches (the conditional append), then
the file unconditionally (the trailing append at the same indentation
level as the key test). -/
def case1Append (patternsL : List (String × List Int)) (filePath : String) :
    List String :=
  if advPatternHit patternsL filePath then [filePath, filePath]
  else [filePath]

/-- What the variables-only branch (Case 2) appends for one file. -/
def case2Append (variablesL : List String) (filePath : String) :
    List String :=
  let variableFolder := categoryOf filePath
  if variablesL.contains variableFolder then [filePath] else []

/-- What the both-supplied branch (Case 3) appends for one file. -/
def case3Append (variablesL : List String)
    (patternsL : List (String × List Int)) (filePath : String) :
    List String :=
  let variableFolder := categoryOf filePath
  if variablesL.contains variableFolder then
    match pyDictLookup patternsL variableFolder with
    | some _ => if advPatternHit patternsL filePath then [filePath] else []
    | none => [filePath]
  else []

/-- FileHandler._advanced_filename_filter (file_handling.py).  variables
and patterns are lower-cased first; when both are None the input is
returned unchanged; otherwise each file is dispatched to one of the three
branch bodies, whose guards use Python truthiness (an empty lowered list
or map makes the corresponding branch guard false). -/
def advancedFilenameFilter (filenames : List String)
    (variablesArg : Option (List String))
    (patternsArg : Option (List (String × List Int))) : List String :=
  let variablesSet := variablesArg.map (fun vs => vs.map pyLower)
  let patternsDict := patternsArg.map (fun ps =>
    ps.map (fun kv => (pyLower kv.1, kv.2)))
  match variablesSet, patternsDict with
  | none, none => filenames
  | vsOpt, pdOpt =>
    filenames.foldl (fun acc filePath =>
      match vsOpt, pdOpt with
      | none, some pd =>
        if pd ≠ [] then acc ++ case1Append pd filePath else acc
      | some vs, none =>
        if vs ≠ [] then acc ++ case2Append vs filePath else acc
      | some vs, some pd =>
        if pd ≠ [] ∧ vs ≠ [] then acc ++ case3Append vs pd filePath else acc
      | none, none => acc) []

/-- A Python value that may be an int, a str, or None, as accepted by the
timestep bounds. -/
inductive PyVal where
  | vint (n : Int)
  | vstr (s : String)
  | vnone
deriving DecidableEq, Repr

/-- A non-empty run of ASCII digits parsed as a natural number. -/
def parseDigits (cs : List Char) : Option Nat :=
  if cs ≠ [] ∧ cs.all Char.isDigit then some (digitsToNat cs) else none

/-- Python int(x) for the values the timestep code passes: an int is
unchanged, a decimal string (optional sign, digits) is parsed with
ValueError when it does not parse, None raises TypeError. -/
def pyIntCoerce : PyVal → Except PyErr Int
  | .vint n => .ok n
  | .vstr s =>
    match
      (match s.toList with
       | '-' :: rest => (parseDigits rest).map (fun n => -(n : Int))
       | '+' :: rest => (parseDigits rest).map (fun n => (n : Int))
       | cs => (parseDigits cs).map (fun n => (n : Int))) with
    | some n => .ok n
    | none => .error (.valueError "invalid literal for int with base 10")
  | .vnone => .error (.typeError "int argument must not be NoneType")

/-- The bound normalisation of DateHandler._process_timesteps:
int(v) if v is not None else default. -/
def timestepBound (v : PyVal) (default : Int) : Except PyErr Int :=
  if v = .vnone then .ok default else pyIntCoerce v

/-- Digit character for a value below ten. -/
def digitChar (n : Nat) : Char := Char.ofNat (48 + n)

/-- Decimal digit characters of a natural number, most significant first,
computed with explicit fuel so that the recursion is structural. -/
def natDigitsAux : Nat → Nat → List Char
  | 0, _ => []
  | fuel + 1, n =>
    if n < 10 then [digitChar n]
    else natDigitsAux fuel (n / 10) ++ [digitChar (n % 10)]

/-- Decimal digit characters of a natural number (n itself is always
enough fuel, since n / 10 < n for n at least ten). -/
def natToDigits (n : Nat) : List Char := natDigitsAux (n + 1) n

/-- Python str(i) for an int. -/
def pyIntStr (i : Int) : String :=
  if i < 0 then String.mk ('-' :: natToDigits i.natAbs)
  else String.mk (natToDigits i.toNat)

/-- Padding step of str.zfill once the string is known to be shorter
than the width: zeros are inserted after a leading sign, otherwise in
front. -/
def pyZfillPad : List Char → Nat → String
  | [], width => String.mk (List.replicate width '0')
  | c :: rest, width =>
    if c = '-' ∨ c = '+' then
      String.mk (c :: (List.replicate (width - (c :: rest).length) '0' ++ rest))
    else String.mk (List.replicate (width - (c :: rest).length) '0' ++ (c :: rest))

/-- Python str.zfill(width): left-pad with zeros to the width, keeping a
leading sign in front of the padding; the string itself is returned when
it is already wide enough. -/
def pyZfill (s : String) (width : Nat) : String :=
  if width ≤ s.toList.length then s else pyZfillPad s.toList width

/-- One timestep token: "_" + str(t).zfill(3) + "_". -/
def timestepToken (t : Int) : String := "_" ++ pyZfill (pyIntStr t) 3 ++ "_"

/-- The token list of DateHandler._process_timesteps: one token per
integer of range(min, max + 1), in order. -/
def timestepTokens (minI maxI : Int) : List String :=
  (List.range (maxI - minI + 1).toNat).map
    (fun (k : Nat) => timestepToken (minI + (k : Int)))

/-- DateHandler._process_timesteps (date_time_utilis.py): normalise the
bounds (defaults 0 and 48, min first), then emit the token list.  The
explicit isinstance re-check of the source is vacuous after int() has
succeeded, so its raise branch is dead. -/
def processTimesteps (minT maxT : PyVal) : Except PyErr (List String) :=
  match timestepBound minT 0 with
  | .error e => .error e
  | .ok minI =>
    match timestepBound maxT 48 with
    | .error e => .error e
    | .ok maxI => .ok (timestepTokens minI maxI)

/-- DWDDownloader._process_timesteps (download/downloader.py): same bound
normalisation and token list, but an optional caller-supplied
include-pattern list is extended in place with the tokens and returned;
when it is None the token list itself is returned. -/
def dwdProcessTimesteps (minT maxT : PyVal)
    (includePattern : Option (List String)) : Except PyErr (List String) :=
  match timestepBound minT 0 with
  | .error e => .error e
  | .ok minI =>
    match timestepBound maxT 48 with
    | .error e => .error e
    | .ok maxI =>
      let temp := timestepTokens minI maxI
      match includePattern with
      | some l => .ok (l ++ temp)
      | none => .ok temp

/-- The timestep call of OSDownloader.download (download/os_download.py,
also OSUploader.upload and GribFileManager): these classes inherit
_process_timesteps only from DateHandler, whose signature is
(min_timestep, max_timestep), yet the call passes the keyword argument
include_pattern.  Python rejects the call with a TypeError before the
method body runs, so the arguments are never used. -/
def osDownloadProcessTimestepsCall (_minT _maxT : PyVal)
    (_includePattern : List String) : Except PyErr (List String) :=
  .error (.typeError kwargMsg)

/-- The pure filtering pipeline of OSDownloader.download
(download/os_download.py) applied to the fetched remote file list: the
include and exclude arguments go through _string_to_list, then
_process_timesteps is called with the include_pattern keyword (which
raises, see osDownloadProcessTimestepsCall), then _simple_filename_filter
would run with no timesteps argument (None) and no mock flag, then
_advanced_filename_filter. -/
def osDownloadFilterPipeline (remoteFiles : List String)
    (remotePref sufArg : Option String)
    (includePattern excludePattern skipVars : StrOrList)
    (minT maxT : PyVal)
    (additionalPatterns : Option (List (String × List Int)))
    (variablesArg : Option (List String)) : Except PyErr (List String) :=
  let includeL := stringToList includePattern
  match osDownloadProcessTimestepsCall minT maxT includeL with
  | .error e => .error e
  | .ok includeWithTs =>
    match simpleFilenameFilter remoteFiles remotePref sufArg
        (.list includeWithTs) excludePattern skipVars none true true false with
    | .error e => .error e
    | .ok filtered =>
      .ok (advancedFilenameFilter filtered variablesArg additionalPatterns)

/-- Outcome of one OSDownloader._download_file / OSUploader._upload_file
task: transferred and verified, skipped because already present and
verified, hash mismatch after transfer, or an exception. -/
inductive TaskOutcome where
  | success
  | skipped
  | mismatch
  | error
deriving DecidableEq, Repr

/-- The boolean the task function returns for an outcome. -/
def taskReturns : TaskOutcome → Bool
  | .success => true
  | .skipped => true
  | .mismatch => false
  | .error => false

/-- Whether the task function itself appends the identifier to the
corrupted list before returning (the mismatch branch and the except
branch both do). -/
def taskInnerCorrupts : TaskOutcome → Bool
  | .success => false
  | .skipped => false
  | .mismatch => true
  | .error => true

/-- Result sets of an object-store transfer run. -/
structure OsRunResult where
  transferred : List String
  corrupted : List String
deriving DecidableEq, Repr

/-- The collection loop of OSDownloader.download (download/os_download.py):
one task per remote path (the work list is built from dict items, so the
paths are distinct), the task appends to corrupted itself on mismatch or
exception, and the loop appends the path to downloaded_files on a True
result and to corrupted_files again on a False result; the except branch
of the loop only logs.  Completion order is modelled as list order, which
is sound for the membership and count properties proved here. -/
def osDownloadRun (out : String → TaskOutcome) (remotes : List String) :
    OsRunResult :=
  remotes.foldl (fun st r =>
    let st1 :=
      if taskInnerCorrupts (out r) then
        { st with corrupted := st.corrupted ++ [r] }
      else st
    if taskReturns (out r) then
      { st1 with transferred := st1.transferred ++ [r] }
    else { st1 with corrupted := st1.corrupted ++ [r] }) ⟨[], []⟩

/-- The collection loop of OSUploader.upload (upload/os_upload.py): same
structure as the download loop, keyed by local file path. -/
def osUploadRun (out : String → TaskOutcome) (locals_ : List String) :
    OsRunResult :=
  locals_.foldl (fun st r =>
    let st1 :=
      if taskInnerCorrupts (out r) then
        { st with corrupted := st.corrupted ++ [r] }
      else st
    if taskReturns (out r) then
      { st1 with transferred := st1.transferred ++ [r] }
    else { st1 with corrupted := st1.corrupted ++ [r] }) ⟨[], []⟩

/-- The in-flight phase of ForecastDownloader.download
(download/forecast_download.py): every link is attempted once; a True
result is appended to downloaded_files, a False result (or an exception
escaping the task) to failed_files. -/
def inFlightPhase (att0 : String → Bool) (links : List String) :
    List String × List String :=
  links.foldl (fun st l =>
    if att0 l then (st.1 ++ [l], st.2) else (st.1, st.2 ++ [l])) ([], [])

/-- Whether the sequential retry while-loop succeeds for a link: the k-th
retry performs attempt number k + 1; the loop stops at the first success
within retry attempts (exceptions inside count as a spent retry). -/
def retrySucceeds (att : String → Nat → Bool) (retry : Nat) (l : String) :
    Bool :=
  (List.range retry).any (fun k => att l (k + 1))

/-- The retry pass of ForecastDownloader.download: iterate over a copy of
failed_files; on a successful retry append the link to downloaded_files
and remove its first occurrence from failed_files. -/
def retryPhase (succ : String → Bool) :
    List String → List String × List String → List String × List String
  | [], st => st
  | l :: rest, st =>
    if succ l then retryPhase succ rest (st.1 ++ [l], st.2.erase l)
    else retryPhase succ rest st

/-- ForecastDownloader.download (download/forecast_download.py), reduced
to its result-set bookkeeping: the parallel in-flight phase over the
link list, then, when retry is positive and failures remain, the
sequential retry pass.  att l k is the outcome of attempt number k on
link l (k = 0 in flight, k = 1.. the retries). -/
def forecastDownload (att : String → Nat → Bool) (retry : Nat)
    (links : List String) : List String × List String :=
  let st := inFlightPhase (fun l => att l 0) links
  if 0 < retry ∧ st.2 ≠ [] then
    retryPhase (retrySucceeds att retry) st.2 st
  else st

/-- FileHandler._calculate_md5 (file_handling.py) streams the file in
4096-byte chunks into the hash state.  A hash state is modelled as the
byte sequence fed so far and the hex digest as an abstract function H of
that sequence, which is exactly the streaming contract of hashlib. -/
def chunksAux : Nat → List Nat → List (List Nat)
  | 0, _ => []
  | _ + 1, [] => []
  | fuel + 1, b :: bs =>
    ((b :: bs).take 4096) :: chunksAux fuel ((b :: bs).drop 4096)

/-- The 4096-byte chunks of a file content (the length of the content is
always enough fuel, since each step consumes at least one byte). -/
def chunks4096 (l : List Nat) : List (List Nat) := chunksAux (l.length + 1) l

/-- The digest _calculate_md5 produces for a file content, as the hash of
the concatenation of the fed chunks. -/
def calculateMd5 (hHex : List Nat → String) (content : List Nat) : String :=
  hHex ((chunks4096 content).foldl (fun acc c => acc ++ c) [])

/-- Resolution of the local digest in OSHandler._verify_file_integrity:
the supplied local_md5 if any, otherwise _calculate_md5 of the local
path, which normalises and opens the path (None path or a read failure
raises, modelled by the readFile oracle). -/
def resolveLocalDigest (hHex : List Nat → String)
    (readFile : String → Except PyErr (List Nat))
    (localFilePath : Option String) (localMd5 : Option String) :
    Except PyErr String :=
  match localMd5 with
  | some m => .ok m
  | none =>
    match localFilePath with
    | none => .error (.typeError "normpath argument must not be NoneType")
    | some p =>
      match readFile (normPath p) with
      | .error e => .error e
      | .ok content => .ok (calculateMd5 hHex content)

/-- Resolution of the remote digest in OSHandler._verify_file_integrity:
the supplied remote_hash if any, otherwise stat_object(bucket,
remote_path).etag; a missing key or any storage failure raises, modelled
by the statEtag oracle. -/
def resolveRemoteDigest
    (statEtag : Option String → Option String → Except PyErr String)
    (bucketName remotePath : Option String) (remoteHash : Option String) :
    Except PyErr String :=
  match remoteHash with
  | some h => .ok h
  | none => statEtag bucketName remotePath

/-- OSHandler._verify_file_integrity (utils/os_handling.py): resolve the
local digest, then the remote digest, inside one try block whose except
handler returns False; on success return remote_hash == local_md5. -/
def verifyFileIntegrity (hHex : List Nat → String)
    (readFile : String → Except PyErr (List Nat))
    (statEtag : Option String → Option String → Except PyErr String)
    (localFilePath remotePath bucketName remoteHash localMd5 :
      Option String) : Bool :=
  match resolveLocalDigest hHex readFile localFilePath localMd5 with
  | .error _ => false
  | .ok localD =>
    match resolveRemoteDigest statEtag bucketName remotePath remoteHash with
    | .error _ => false
    | .ok remoteD => remoteD == localD

/-- Decidable equality for Except values, so that concrete runs of the
embedded fallible functions can be checked by decide. -/
instance exceptDecEq {ε α : Type} [DecidableEq ε] [DecidableEq α] :
    DecidableEq (Except ε α) := fun a b =>
  match a, b with
  | .ok x, .ok y =>
    if h : x = y then .isTrue (by rw [h]) else
      .isFalse (fun hc => h (Except.ok.inj hc))
  | .error x, .error y =>
    if h : x = y then .isTrue (by rw [h]) else
      .isFalse (fun hc => h (Except.error.inj hc))
  | .ok _, .error _ => .isFalse (fun hc => Except.noConfusion hc)
  | .error _, .ok _ => .isFalse (fun hc => Except.noConfusion hc)

/-- The token shape claimed by the spec for a timestep token: the whole
token matches the regular expression underscore, three digits,
underscore.  (A token of four or more digits also has no proper
sub-match of that expression, see hasDigit3Sub.) -/
def specTimestepToken (s : String) : Bool :=
  match s.toList with
  | [u1, a, b, c, u2] =>
    (u1 = '_') && a.isDigit && b.isDigit && c.isDigit && (u2 = '_')
  | _ => false

/-- Search variant of the spec token shape: some position of the string
starts an underscore, three digits, underscore sub-sequence (re.search
rather than fullmatch). -/
def hasDigit3Sub : List Char → Bool
  | [] => false
  | x :: rest =>
    (match x :: rest with
     | u1 :: a :: b :: c :: u2 :: _ =>
       (u1 = '_') && a.isDigit && b.isDigit && c.isDigit && (u2 = '_')
     | _ => false) || hasDigit3Sub rest

/-- The attempt oracle of the concrete scenario of C5: "b" fails in
flight and on the first retry, then succeeds; "a" and "c" succeed
immediately. -/
def exAtt (l : String) (k : Nat) : Bool :=
  if l = "b" then decide (k = 2) else true

/-! ## Helper lemmas -/

theorem nil_isPrefixOf {α : Type} [BEq α] (l : List α) :
    List.isPrefixOf ([] : List α) l = true := by
  cases l <;> rfl

theorem exceptFilter_ok {α : Type} (f : α → Except PyErr Bool) (g : α → Bool) :
    ∀ l : List α, (∀ x ∈ l, f x = .ok (g x)) →
      exceptFilter f l = .ok (l.filter g)
  | [], _ => rfl
  | x :: xs, h => by
    have hx : f x = .ok (g x) := h x (List.mem_cons_self x xs)
    have hxs : exceptFilter f xs = .ok (xs.filter g) :=
      exceptFilter_ok f g xs (fun y hy => h y (List.mem_cons_of_mem x hy))
    simp only [exceptFilter, hx, hxs, List.filter_cons]

theorem foldl_append_eq_flatMap {α β : Type} (g : α → List β) :
    ∀ (l : List α) (init : List β),
      l.foldl (fun acc x => acc ++ g x) init = init ++ l.flatMap g
  | [], init => by simp
  | x :: xs, init => by
    simp only [List.foldl_cons, List.flatMap_cons,
      foldl_append_eq_flatMap g xs, List.append_assoc]

/-! ## C1 -/

/-- C1 (counterexample): with the numeric-pattern map relhum -> [1000]
and no category allowlist, a file whose category is relhum and whose
parsed tag 999 is not in the constrained set still appears in the
output, contrary to the claim that it does not. -/
theorem C1_counterexample :
    advancedFilenameFilter ["relhum/f_0999_relhum.grib"] none
        (some [("relhum", [1000])]) = ["relhum/f_0999_relhum.grib"] ∧
    categoryOf "relhum/f_0999_relhum.grib" = "relhum" ∧
    searchTagIn "f_0999_relhum.grib" "relhum" = some 999 ∧
    ¬ ((999 : Int) ∈ ([1000] : List Int)) := by
  refine ⟨by decide, by decide, by decide, by decide⟩

/-- C1 (amended): with a non-empty numeric-pattern map and no category
allowlist, every input file is kept; a file whose category is a key of
the map and whose parsed tag is in that key's constrained set is
appended a second time, and every other file (constrained category with
non-matching or unparsable tag included) is kept exactly once. -/
theorem C1_advanced_filter_patterns_only (filenames : List String)
    (pats : List (String × List Int)) (hne : pats ≠ []) :
    advancedFilenameFilter filenames none (some pats) =
      filenames.flatMap
        (case1Append (pats.map (fun kv => (pyLower kv.1, kv.2)))) ∧
    ∀ f ∈ filenames, f ∈ advancedFilenameFilter filenames none (some pats) := by
  have hpd : pats.map (fun kv => (pyLower kv.1, kv.2)) ≠ [] := by
    intro h
    exact hne (List.map_eq_nil_iff.mp h)
  have heq : advancedFilenameFilter filenames none (some pats) =
      filenames.flatMap
        (case1Append (pats.map (fun kv => (pyLower kv.1, kv.2)))) := by
    simp only [advancedFilenameFilter, Option.map_none', Option.map_some',
      if_pos hpd]
    exact foldl_append_eq_flatMap _ filenames []
  refine ⟨heq, fun f hf => ?_⟩
  rw [heq]
  rw [List.mem_flatMap]
  refine ⟨f, hf, ?_⟩
  unfold case1Append
  split <;> simp

/-- C1 (witness for the amended theorem). -/
theorem C1_advanced_filter_patterns_only_witness :
    advancedFilenameFilter
        ["relhum/f_1000_relhum.grib", "relhum/f_0999_relhum.grib", "t2m/a.grib"]
        none (some [("relhum", [1000])]) =
      ["relhum/f_1000_relhum.grib", "relhum/f_1000_relhum.grib",
        "relhum/f_0999_relhum.grib", "t2m/a.grib"] ∧
    "t2m/a.grib" ∈ advancedFilenameFilter
        ["relhum/f_1000_relhum.grib", "relhum/f_0999_relhum.grib", "t2m/a.grib"]
        none (some [("relhum", [1000])]) := by
  have h := C1_advanced_filter_patterns_only
    ["relhum/f_1000_relhum.grib", "relhum/f_0999_relhum.grib", "t2m/a.grib"]
    [("relhum", [1000])] (by decide)
  refine ⟨?_, h.2 "t2m/a.grib" (by decide)⟩
  rw [h.1]
  decide

/-! ## C2 -/

/-- C2 (counterexample): with an empty FilterSpec the simple filter is
not the identity: an empty timestep token set rejects every filename
(output [] for input ["a"]), and an absent (None) timestep list raises a
TypeError instead of returning the input. -/
theorem C2_counterexample :
    simpleFilenameFilter ["a"] none none .noneV .noneV .noneV (some [])
        true true false = .ok [] ∧
    simpleFilenameFilter ["a"] none none .noneV .noneV .noneV none
        true true false = .error (.typeError iterNoneMsg) ∧
    (Except.ok ([] : List String) : Except PyErr (List String)) ≠
      .ok ["a"] := by
  refine ⟨by decide, by decide, by decide⟩

/-- C2 (amended): with empty prefix, suffix, include, exclude and bypass
constraints, the simple filter returns the empty list when the timestep
token set is empty, and returns the input (each path normalized, the
default) exactly when the timestep check is bypassed via the mock flag. -/
theorem C2_simple_filter_empty_spec (filenames : List String) :
    simpleFilenameFilter filenames none none .noneV .noneV .noneV (some [])
        true true false = .ok [] ∧
    simpleFilenameFilter filenames none none .noneV .noneV .noneV none
        true true true = .ok (filenames.map normPath) := by
  constructor
  · have h := exceptFilter_ok
      (simpleFilterOne "" "" [] [] (some []) true false) (fun _ => false)
      (filenames.map normPath)
      (fun x _ => by
        simp [simpleFilterOne, mockTimeSteps])
    simp [simpleFilenameFilter, stringToList, h]
  · have h := exceptFilter_ok
      (simpleFilterOne "" "" [] [] none true true) (fun _ => true)
      (filenames.map normPath)
      (fun x _ => by
        simp [simpleFilterOne, mockTimeSteps, pyStartsWith, pyEndsWith,
          switchablePatternCheck, nil_isPrefixOf, List.isSuffixOf])
    simp [simpleFilenameFilter, stringToList, h]

/-! ## Scheduler closed forms -/

theorem inFlightPhase_aux (p : String → Bool) :
    ∀ (links : List String) (d f : List String),
      links.foldl (fun st l =>
          if p l then (st.1 ++ [l], st.2) else (st.1, st.2 ++ [l])) (d, f)
        = (d ++ links.filter p, f ++ links.filter (fun l => !p l))
  | [], d, f => by simp
  | l :: rest, d, f => by
    by_cases h : p l
    · simp [List.foldl_cons, h, inFlightPhase_aux p rest, List.filter_cons]
    · simp [List.foldl_cons, h, inFlightPhase_aux p rest, List.filter_cons]

theorem inFlightPhase_eq (p : String → Bool) (links : List String) :
    inFlightPhase p links =
      (links.filter p, links.filter (fun l => !p l)) := by
  have h := inFlightPhase_aux p links [] []
  simpa [inFlightPhase] using h

theorem retryPhase_eq (succ : String → Bool) :
    ∀ (toProcess : List String) (st : List String × List String),
      retryPhase succ toProcess st =
        (st.1 ++ toProcess.filter succ, st.2.diff (toProcess.filter succ))
  | [], st => by simp [retryPhase]
  | l :: rest, st => by
    by_cases h : succ l
    · simp only [retryPhase, h, if_pos, retryPhase_eq succ rest,
        List.filter_cons, List.diff_cons]
      simp [h, List.append_assoc]
    · simp only [retryPhase, h, if_neg, retryPhase_eq succ rest,
        List.filter_cons]
      simp [h]

theorem retrySucceeds_zero (att : String → Nat → Bool) (l : String) :
    retrySucceeds att 0 l = false := by
  simp [retrySucceeds]

theorem forecastDownload_eq (att : String → Nat → Bool) (retry : Nat)
    (links : List String) :
    forecastDownload att retry links =
      (links.filter (fun l => att l 0) ++
        (links.filter (fun l => !att l 0)).filter (retrySucceeds att retry),
       (links.filter (fun l => !att l 0)).diff
        ((links.filter (fun l => !att l 0)).filter (retrySucceeds att retry))) := by
  unfold forecastDownload
  rw [inFlightPhase_eq]
  by_cases hg : 0 < retry ∧ links.filter (fun l => !att l 0) ≠ []
  · rw [if_pos hg, retryPhase_eq]
  · rw [if_neg hg]
    rcases Decidable.not_and_iff_or_not.mp hg with h0 | hf
    · have hr : retry = 0 := by omega
      subst hr
      simp [retrySucceeds_zero, List.filter_eq_nil_iff]
    · have hf2 : links.filter (fun l => !att l 0) = [] :=
        Decidable.of_not_not hf
      simp [hf2]

/-- Per-link membership characterisation of ForecastDownloader.download:
a link lands in downloaded_files iff its in-flight attempt succeeded or
some retry attempt succeeded, and lands in failed_files iff every
attempt failed.  Shared by the claim theorems about the scheduler. -/
theorem forecastDownload_mem (att : String → Nat → Bool) (retry : Nat)
    (links : List String) (hnd : links.Nodup) (l : String) (hl : l ∈ links) :
    (l ∈ (forecastDownload att retry links).1 ↔
      att l 0 = true ∨ ∃ k, k < retry ∧ att l (k + 1) = true) ∧
    (l ∈ (forecastDownload att retry links).2 ↔
      att l 0 = false ∧ ∀ k, k < retry → att l (k + 1) = false) := by
  rw [forecastDownload_eq]
  have hndf : (links.filter (fun l => !att l 0)).Nodup := hnd.filter _
  have hsucc : retrySucceeds att retry l = true ↔
      ∃ k, k < retry ∧ att l (k + 1) = true := by
    simp [retrySucceeds, List.any_eq_true, List.mem_range]
  constructor
  · rw [List.mem_append, List.mem_filter, List.mem_filter, List.mem_filter]
    constructor
    · rintro (⟨-, h⟩ | ⟨⟨-, -⟩, hs⟩)
      · exact Or.inl h
      · exact Or.inr (hsucc.mp hs)
    · rintro (h | hs)
      · exact Or.inl ⟨hl, h⟩
      · by_cases h0 : att l 0 = true
        · exact Or.inl ⟨hl, h0⟩
        · refine Or.inr ⟨⟨hl, ?_⟩, hsucc.mpr hs⟩
          simp [Bool.eq_false_iff.mpr h0]
  · rw [List.Nodup.mem_diff_iff hndf, List.mem_filter, List.mem_filter,
      List.mem_filter]
    constructor
    · rintro ⟨⟨-, h0⟩, hns⟩
      have h0f : att l 0 = false := by simpa using h0
      refine ⟨h0f, fun k hk => ?_⟩
      by_contra hc
      exact hns ⟨⟨hl, h0⟩, hsucc.mpr ⟨k, hk, by simpa using hc⟩⟩
    · rintro ⟨h0, hall⟩
      refine ⟨⟨hl, by simp [h0]⟩, fun hc => ?_⟩
      obtain ⟨k, hk, hatt⟩ := hsucc.mp hc.2
      exact absurd hatt (by simp [hall k hk])

theorem taskInnerCorrupts_eq_not_returns (o : TaskOutcome) :
    taskInnerCorrupts o = !taskReturns o := by
  cases o <;> rfl

theorem osDownloadRun_aux (out : String → TaskOutcome) :
    ∀ (remotes : List String) (st : OsRunResult),
      remotes.foldl (fun st r =>
        let st1 :=
          if taskInnerCorrupts (out r) then
            { st with corrupted := st.corrupted ++ [r] }
          else st
        if taskReturns (out r) then
          { st1 with transferred := st1.transferred ++ [r] }
        else { st1 with corrupted := st1.corrupted ++ [r] }) st
      = ⟨st.transferred ++ remotes.filter (fun r => taskReturns (out r)),
         st.corrupted ++ remotes.flatMap
          (fun r => if taskReturns (out r) then [] else [r, r])⟩
  | [], st => by simp
  | r :: rest, st => by
    by_cases h : taskReturns (out r)
    · have hstep : (if taskInnerCorrupts (out r) then
            { st with corrupted := st.corrupted ++ [r] }
          else st) = st := by
        rw [taskInnerCorrupts_eq_not_returns, h]
        rfl
      simp only [List.foldl_cons, hstep, h, if_true,
        osDownloadRun_aux out rest, List.filter_cons, List.flatMap_cons]
      simp [h, List.append_assoc]
    · have hb : taskReturns (out r) = false := Bool.eq_false_iff.mpr h
      have hstep : (if taskInnerCorrupts (out r) then
            { st with corrupted := st.corrupted ++ [r] }
          else st) = { st with corrupted := st.corrupted ++ [r] } := by
        rw [taskInnerCorrupts_eq_not_returns, hb]
        rfl
      simp only [List.foldl_cons, hstep, hb, if_true,
        osDownloadRun_aux out rest, List.filter_cons, List.flatMap_cons]
      simp [hb, List.append_assoc]

theorem osDownloadRun_eq (out : String → TaskOutcome) (remotes : List String) :
    osDownloadRun out remotes =
      ⟨remotes.filter (fun r => taskReturns (out r)),
       remotes.flatMap (fun r => if taskReturns (out r) then [] else [r, r])⟩ := by
  have h := osDownloadRun_aux out remotes ⟨[], []⟩
  simpa [osDownloadRun] using h

theorem osUploadRun_eq_osDownloadRun : osUploadRun = osDownloadRun := rfl

theorem notMem_failFlatMap (out : String → TaskOutcome) (r : String) :
    ∀ (rest : List String), r ∉ rest →
      List.count r (rest.flatMap
        (fun x => if taskReturns (out x) then [] else [x, x])) = 0 := by
  intro rest hr
  rw [List.count_eq_zero]
  intro hc
  obtain ⟨x, hx, hrx⟩ := List.mem_flatMap.mp hc
  have : r = x := by
    by_cases h : taskReturns (out x)
    · simp [h] at hrx
    · simp [h] at hrx
      tauto
  exact hr (this ▸ hx)

/-! ## C3 -/

/-- C3: after a transfer run, a remote identifier never appears in both
the succeeded and the corrupted result sets of the object-store
downloader, and in the forecast downloader (whose runs have a failed set
and no corrupted set) an identifier still in failed_files after all
retries is absent from downloaded_files.  The object-store work list is
built from dict items and the forecast link list is assumed
duplicate-free. -/
theorem C3_result_sets_disjoint :
    (∀ (out : String → TaskOutcome) (remotes : List String) (r : String),
      ¬(r ∈ (osDownloadRun out remotes).transferred ∧
        r ∈ (osDownloadRun out remotes).corrupted)) ∧
    (∀ (att : String → Nat → Bool) (retry : Nat) (links : List String),
      links.Nodup → ∀ l, l ∈ (forecastDownload att retry links).2 →
        l ∉ (forecastDownload att retry links).1) := by
  constructor
  · rintro out remotes r ⟨ht, hc⟩
    rw [osDownloadRun_eq] at ht hc
    have hr : taskReturns (out r) = true := (List.mem_filter.mp ht).2
    obtain ⟨x, _, hrx⟩ := List.mem_flatMap.mp hc
    by_cases h : taskReturns (out x)
    · simp [h] at hrx
    · have : r = x := by simp [h] at hrx; tauto
      rw [this] at hr
      exact h hr
  · intro att retry links hnd l hfail hsucc
    have hl : l ∈ links := by
      rw [forecastDownload_eq] at hfail
      have := (List.Nodup.mem_diff_iff (hnd.filter _)).mp hfail
      exact (List.mem_filter.mp this.1).1
    have h := forecastDownload_mem att retry links hnd l hl
    obtain ⟨h0, hall⟩ := h.2.mp hfail
    rcases h.1.mp hsucc with hc | ⟨k, hk, hc⟩
    · rw [h0] at hc
      exact Bool.false_ne_true hc
    · rw [hall k hk] at hc
      exact Bool.false_ne_true hc

/-- C3 (witness): a concrete run with one mismatching download and a
concrete forecast run with one permanently failing link. -/
theorem C3_result_sets_disjoint_witness :
    ¬("x" ∈ (osDownloadRun
        (fun r => if r = "x" then .mismatch else .success)
        ["x", "y"]).transferred ∧
      "x" ∈ (osDownloadRun
        (fun r => if r = "x" then .mismatch else .success)
        ["x", "y"]).corrupted) ∧
    "b" ∉ (forecastDownload (fun l _ => l ≠ "b") 0 ["a", "b", "c"]).1 := by
  constructor
  · exact C3_result_sets_disjoint.1
      (fun r => if r = "x" then .mismatch else .success) ["x", "y"] "x"
  · exact C3_result_sets_disjoint.2 (fun l _ => l ≠ "b") 0 ["a", "b", "c"]
      (by decide) "b" (by decide)

/-! ## C5 -/

/-- C5: after the in-flight phase of ForecastDownloader.download, every
failed item is retried sequentially up to retry additional times; an
item succeeding on some retry attempt ends in downloaded_files and not
in failed_files, and an item failing every attempt stays in
failed_files. -/
theorem C5_retry_semantics (att : String → Nat → Bool) (retry : Nat)
    (links : List String) (hnd : links.Nodup) (l : String) (hl : l ∈ links) :
    (l ∈ (forecastDownload att retry links).1 ↔
      att l 0 = true ∨ ∃ k, k < retry ∧ att l (k + 1) = true) ∧
    (l ∈ (forecastDownload att retry links).2 ↔
      att l 0 = false ∧ ∀ k, k < retry → att l (k + 1) = false) :=
  forecastDownload_mem att retry links hnd l hl

/-- C5 (witness): the concrete scenario of the claim, targets
["a", "b", "c"] with retry 3 and "b" failing twice then succeeding ends
with succeeded = [a, c, b] and failed = []. -/
theorem C5_retry_semantics_witness :
    forecastDownload exAtt 3 ["a", "b", "c"] = (["a", "c", "b"], []) ∧
    "b" ∈ (forecastDownload exAtt 3 ["a", "b", "c"]).1 ∧
    "b" ∉ (forecastDownload exAtt 3 ["a", "b", "c"]).2 := by
  have h := C5_retry_semantics exAtt 3 ["a", "b", "c"] (by decide) "b"
    (by decide)
  refine ⟨by decide, h.1.mpr (Or.inr ⟨1, by decide, by decide⟩), fun hc => ?_⟩
  have := (h.2.mp hc).2 1 (by decide)
  simp [exAtt] at this

/-! ## C10 -/

/-- C10: in the object-store downloader and uploader, a task ending in a
hash mismatch or an exception appends its identifier to the corrupted
list twice (once inside the task before returning False, once in the
collection loop); with distinct inputs the identifier has count exactly
two, so the corrupted set is not duplicate-free. -/
theorem C10_corrupted_double_append (out : String → TaskOutcome)
    (remotes : List String) (hnd : remotes.Nodup) (r : String)
    (hr : r ∈ remotes) (hfail : taskInnerCorrupts (out r) = true) :
    List.count r (osDownloadRun out remotes).corrupted = 2 ∧
    List.count r (osUploadRun out remotes).corrupted = 2 := by
  have hret : taskReturns (out r) = false := by
    rw [taskInnerCorrupts_eq_not_returns] at hfail
    simpa using hfail
  have hcount :
      List.count r (osDownloadRun out remotes).corrupted = 2 := by
    rw [osDownloadRun_eq]
    clear hfail
    induction remotes with
    | nil => cases hr
    | cons x rest ih =>
      rw [List.flatMap_cons, List.count_append]
      rcases List.mem_cons.mp hr with hxr | hmem
      · subst hxr
        have hnr : r ∉ rest := (List.nodup_cons.mp hnd).1
        rw [notMem_failFlatMap out r rest hnr]
        simp [hret, List.count_cons]
      · have hxne : x ≠ r := by
          rintro rfl
          exact (List.nodup_cons.mp hnd).1 hmem
        have h1 : List.count r
            (if taskReturns (out x) then ([] : List String) else [x, x]) = 0 := by
          by_cases h : taskReturns (out x) <;>
            simp [h, List.count_cons, hxne]
        rw [h1, ih (List.nodup_cons.mp hnd).2 hmem]
  exact ⟨hcount, by rw [osUploadRun_eq_osDownloadRun]; exact hcount⟩

/-- C10 (witness): a two-item run whose first item hits a hash
mismatch. -/
theorem C10_corrupted_double_append_witness :
    List.count "x" (osDownloadRun
      (fun r => if r = "x" then .mismatch else .success)
      ["x", "y"]).corrupted = 2 ∧
    List.count "x" (osUploadRun
      (fun r => if r = "x" then .mismatch else .success)
      ["x", "y"]).corrupted = 2 :=
  C10_corrupted_double_append
    (fun r => if r = "x" then .mismatch else .success)
    ["x", "y"] (by decide) "x" (by decide) (by decide)

/-! ## C4 -/

theorem chunksAux_flatten :
    ∀ (fuel : Nat) (l : List Nat), l.length < fuel →
      (chunksAux fuel l).flatten = l
  | fuel + 1, [], _ => rfl
  | fuel + 1, b :: bs, hlen => by
    rw [chunksAux, List.flatten_cons,
      chunksAux_flatten fuel ((b :: bs).drop 4096)
        (by rw [List.length_drop, List.length_cons]
            rw [List.length_cons] at hlen
            omega),
      List.take_append_drop]

theorem chunks4096_flatten (l : List Nat) : (chunks4096 l).flatten = l :=
  chunksAux_flatten (l.length + 1) l (Nat.lt_succ_self _)

theorem calculateMd5_eq (hHex : List Nat → String) (content : List Nat) :
    calculateMd5 hHex content = hHex content := by
  unfold calculateMd5
  rw [show ((chunks4096 content).foldl (fun acc c => acc ++ c) []) =
      (chunks4096 content).flatMap id from
    foldl_append_eq_flatMap id (chunks4096 content) []]
  rw [List.flatMap_id, chunks4096_flatten]

/-- C4: integrity verification returns true exactly when the resolved
local and remote digest strings agree; the local digest defaults to the
streamed file hash (whose chunked feeding hashes exactly the file
content) and the remote digest to the metadata lookup; any failure of
either resolution (a missing remote key included) yields false, and the
function is total, so it never propagates an exception. -/
theorem C4_verify_integrity (hHex : List Nat → String)
    (readFile : String → Except PyErr (List Nat))
    (statEtag : Option String → Option String → Except PyErr String)
    (lfp rp bn rh lmd : Option String) :
    (verifyFileIntegrity hHex readFile statEtag lfp rp bn rh lmd = true ↔
      ∃ d, resolveLocalDigest hHex readFile lfp lmd = .ok d ∧
        resolveRemoteDigest statEtag bn rp rh = .ok d) ∧
    (∀ content, calculateMd5 hHex content = hHex content) := by
  refine ⟨?_, fun content => calculateMd5_eq hHex content⟩
  unfold verifyFileIntegrity
  cases hL : resolveLocalDigest hHex readFile lfp lmd with
  | error e => simp
  | ok l =>
    cases hR : resolveRemoteDigest statEtag bn rp rh with
    | error e => simp
    | ok r =>
      simp only [beq_iff_eq]
      constructor
      · intro h
        exact ⟨l, rfl, by rw [h]⟩
      · rintro ⟨d, hd1, hd2⟩
        rw [Except.ok.inj hd1, Except.ok.inj hd2]

/-- C4 (witness): a concrete verification where the computed local
digest matches the fetched remote digest, and one where the remote
lookup fails and verification reports false. -/
theorem C4_verify_integrity_witness :
    verifyFileIntegrity (fun c => toString c.length) (fun _ => .ok [7, 8])
      (fun _ _ => .ok "2") (some "f") (some "r") (some "b") none none
      = true ∧
    verifyFileIntegrity (fun c => toString c.length) (fun _ => .ok [7, 8])
      (fun _ _ => .error (.ioError "missing key")) (some "f") (some "r")
      (some "b") none none = false := by
  constructor
  · exact (C4_verify_integrity (fun c => toString c.length)
      (fun _ => .ok [7, 8]) (fun _ _ => .ok "2")
      (some "f") (some "r") (some "b") none none).1.mpr
      ⟨"2", by decide, rfl⟩
  · have h := (C4_verify_integrity (fun c => toString c.length)
      (fun _ => .ok [7, 8]) (fun _ _ => .error (.ioError "missing key"))
      (some "f") (some "r") (some "b") none none).1
    rw [Bool.eq_false_iff]
    intro ht
    obtain ⟨d, -, hc⟩ := h.mp ht
    exact Except.noConfusion hc

/-! ## C7 -/

/-- C7 (code_bug): the timestep generator of DWDDownloader appends its
tokens to any caller-supplied include-pattern collection, preserving the
caller patterns; but the object-store classes inherit only the
DateHandler variant, whose signature has no include_pattern parameter,
so their calls raise a TypeError instead of appending. -/
theorem C7_timestep_append_bug (a b : Int) (pat : List String)
    (ma mb : PyVal) (inc : List String) :
    dwdProcessTimesteps (.vint a) (.vint b) (some pat) =
      .ok (pat ++ timestepTokens a b) ∧
    dwdProcessTimesteps (.vint a) (.vint b) none = .ok (timestepTokens a b) ∧
    osDownloadProcessTimestepsCall ma mb inc =
      .error (.typeError kwargMsg) := by
  refine ⟨?_, ?_, rfl⟩ <;>
    simp [dwdProcessTimesteps, timestepBound, pyIntCoerce]

/-! ## C6 -/

theorem digitChar_isDigit (n : Nat) (h : n < 10) :
    (digitChar n).isDigit = true := by
  interval_cases n <;> decide

theorem natDigitsAux_digits :
    ∀ (fuel n : Nat), n < fuel → ∀ c ∈ natDigitsAux fuel n, c.isDigit = true
  | fuel + 1, n, hfn, c, hc => by
    by_cases h10 : n < 10
    · simp only [natDigitsAux, if_pos h10, List.mem_singleton] at hc
      subst hc
      exact digitChar_isDigit n h10
    · simp only [natDigitsAux, if_neg h10] at hc
      rcases List.mem_append.mp hc with h1 | h2
      · exact natDigitsAux_digits fuel (n / 10) (by omega) c h1
      · rw [List.mem_singleton] at h2
        subst h2
        exact digitChar_isDigit (n % 10) (by omega)

theorem natDigitsAux_len :
    ∀ (fuel n : Nat), n < fuel →
      1 ≤ (natDigitsAux fuel n).length ∧
      (n ≤ 9 → (natDigitsAux fuel n).length = 1) ∧
      (n ≤ 99 → (natDigitsAux fuel n).length ≤ 2) ∧
      (n ≤ 999 → (natDigitsAux fuel n).length ≤ 3)
  | fuel + 1, n, hfn => by
    by_cases h10 : n < 10
    · simp [natDigitsAux, h10]
    · have ih := natDigitsAux_len fuel (n / 10) (by omega)
      simp only [natDigitsAux, if_neg h10, List.length_append,
        List.length_cons, List.length_nil]
      refine ⟨by omega, by omega, ?_, ?_⟩
      · intro h99
        have := ih.2.1 (by omega)
        omega
      · intro h999
        have := ih.2.2.1 (by omega)
        omega

theorem isDigit_ne_sign {c : Char} (h : c.isDigit = true) :
    ¬(c = '-' ∨ c = '+') := by
  rintro (rfl | rfl) <;> exact Bool.false_ne_true h

theorem pyZfill_three (cs : List Char) (h1 : 1 ≤ cs.length)
    (h3 : cs.length ≤ 3) (hd : ∀ c ∈ cs, c.isDigit = true) :
    (pyZfill (String.mk cs) 3).toList.length = 3 ∧
    ∀ c ∈ (pyZfill (String.mk cs) 3).toList, c.isDigit = true := by
  have hlist : (String.mk cs).toList = cs := rfl
  unfold pyZfill
  rw [hlist]
  by_cases hge : 3 ≤ cs.length
  · rw [if_pos hge, hlist]
    exact ⟨by omega, hd⟩
  · rw [if_neg hge]
    cases cs with
    | nil => simp at h1
    | cons c0 rest =>
      have hc0 : c0.isDigit = true := hd c0 (List.mem_cons_self c0 rest)
      simp only [pyZfillPad, if_neg (isDigit_ne_sign hc0)]
      constructor
      · simp only [String.toList, List.length_append, List.length_replicate,
          List.length_cons]
        simp only [List.length_cons] at hge
        omega
      · intro c hc
        rcases List.mem_append.mp hc with h1m | h2m
        · rw [List.eq_of_mem_replicate h1m]
          decide
        · exact hd c h2m

theorem specTimestepToken_of_range (t : Int) (h0 : 0 ≤ t) (h9 : t ≤ 999) :
    specTimestepToken (timestepToken t) = true := by
  have hstr : pyIntStr t = String.mk (natToDigits t.toNat) := by
    unfold pyIntStr
    rw [if_neg (by omega)]
  have hn : t.toNat ≤ 999 := by omega
  have hlen := natDigitsAux_len (t.toNat + 1) t.toNat (Nat.lt_succ_self _)
  have hdig := natDigitsAux_digits (t.toNat + 1) t.toNat (Nat.lt_succ_self _)
  have hz := pyZfill_three (natToDigits t.toNat) hlen.1 (hlen.2.2.2 hn) hdig
  obtain ⟨a, b, c, habc⟩ := List.length_eq_three.mp hz.1
  have hlist : (timestepToken t).toList =
      '_' :: (pyZfill (pyIntStr t) 3).toList ++ ['_'] := by
    unfold timestepToken
    simp [String.toList, String.data_append]
  rw [hstr] at hlist
  unfold specTimestepToken
  rw [hlist, habc]
  have ha : a.isDigit = true := by
    refine hz.2 a ?_
    rw [habc]
    simp
  have hb : b.isDigit = true := by
    refine hz.2 b ?_
    rw [habc]
    simp
  have hc : c.isDigit = true := by
    refine hz.2 c ?_
    rw [habc]
    simp
  simp [ha, hb, hc]

/-- C6 (counterexample): the bounds 1000 and 1000 are integer-coercible
with min equal to max, yet the single generated token is "_1000_", which
is not zero-padded to exactly three digits: it neither equals nor even
contains an underscore-three-digits-underscore match. -/
theorem C6_counterexample :
    processTimesteps (.vint 1000) (.vint 1000) = .ok ["_1000_"] ∧
    specTimestepToken "_1000_" = false ∧
    hasDigit3Sub "_1000_".toList = false ∧
    (1000 : Int) ≤ 1000 := by
  refine ⟨by decide, by decide, by decide, by decide⟩

/-- C6 (amended): for integer-coercible bounds with min at most max the
generator returns one token per integer of the range in order, the
length is max - min + 1, and every token matches the three-digit shape
when the bounds additionally lie within 0..999 (outside that range the
zero-padding of the source exceeds three digits or carries a sign);
a bound that cannot be coerced to an integer makes the call fail with
that coercion error. -/
theorem C6_timestep_tokens (ma mb : PyVal) (a b : Int)
    (ha : timestepBound ma 0 = .ok a) (hb : timestepBound mb 48 = .ok b)
    (hab : a ≤ b) :
    processTimesteps ma mb = .ok (timestepTokens a b) ∧
    (timestepTokens a b).length = (b - a + 1).toNat ∧
    (∀ n : Int, a ≤ n → n ≤ b → timestepToken n ∈ timestepTokens a b) ∧
    (0 ≤ a → b ≤ 999 →
      ∀ t ∈ timestepTokens a b, specTimestepToken t = true) ∧
    (∀ (v : PyVal) (e : PyErr), timestepBound v 0 = .error e →
      processTimesteps v mb = .error e) ∧
    (∀ (v : PyVal) (e : PyErr), timestepBound v 48 = .error e →
      processTimesteps ma v = .error e) := by
  refine ⟨?_, ?_, ?_, ?_, ?_, ?_⟩
  · unfold processTimesteps
    rw [ha, hb]
  · unfold timestepTokens
    rw [List.length_map, List.length_range]
  · intro n han hnb
    have hk : (n - a).toNat < (b - a + 1).toNat := by omega
    unfold timestepTokens
    refine List.mem_map.mpr ⟨(n - a).toNat, List.mem_range.mpr hk, ?_⟩
    congr 1
    omega
  · intro h0 h999 t ht
    unfold timestepTokens at ht
    obtain ⟨k, hk, hkt⟩ := List.mem_map.mp ht
    rw [← hkt]
    have hkr := List.mem_range.mp hk
    exact specTimestepToken_of_range (a + k) (by omega) (by omega)
  · intro v e hv
    unfold processTimesteps
    rw [hv]
  · intro v e hv
    unfold processTimesteps
    rw [ha, hv]

/-- C6 (witness): bounds 0 and 2 generate the three ordered tokens and
each matches the three-digit shape; the string bound "abc" fails with a
ValueError. -/
theorem C6_timestep_tokens_witness :
    processTimesteps (.vint 0) (.vint 2) = .ok (timestepTokens 0 2) ∧
    (timestepTokens 0 2).length = 3 ∧
    timestepToken 1 ∈ timestepTokens 0 2 ∧
    (∀ t ∈ timestepTokens 0 2, specTimestepToken t = true) ∧
    processTimesteps (.vstr "abc") (.vint 2) =
      .error (.valueError "invalid literal for int with base 10") := by
  have h := C6_timestep_tokens (.vint 0) (.vint 2) 0 2 (by decide) (by decide)
    (by decide)
  refine ⟨h.1, h.2.1, h.2.2.1 1 (by decide) (by decide),
    h.2.2.2.1 (by decide) (by decide), ?_⟩
  exact h.2.2.2.2.1 (.vstr "abc")
    (.valueError "invalid literal for int with base 10") (by decide)

/-! ## C8 -/

theorem simpleFilterOne_some (pre suf : String)
    (includeL excludeL ts : List String) (useAll mock : Bool) (f : String) :
    simpleFilterOne pre suf includeL excludeL (some ts) useAll mock f =
      .ok (simplePassB pre suf includeL excludeL ts useAll mock f) := by
  unfold simpleFilterOne simplePassB mockTimeSteps
  split
  · by_cases hm : mock
    · simp [hm]
    · simp only [hm, if_false, Bool.false_eq_true]
      cases hany : ts.any (fun t => pyIn t f) <;> simp [hany]
  · rfl

/-- C8: with a present timestep token list, every filename whose
category is in the bypass set appears in the simple filter output
whatever the include, timestep and exclude checks say; the output is the
concatenation of the ordinary filter result and the independently
computed bypass list, so duplicates are permitted. -/
theorem C8_bypass_escape_hatch (filenames : List String)
    (pre suf : Option String) (includeP excludeP skipVars : StrOrList)
    (ts : List String) (useAll mock : Bool)
    (hskip : stringToList skipVars ≠ []) :
    simpleFilenameFilter filenames pre suf includeP excludeP skipVars
        (some ts) true useAll mock =
      .ok (((filenames.map normPath).filter
          (simplePassB (pre.getD "") (suf.getD "") (stringToList includeP)
            (stringToList excludeP) ts useAll mock)) ++
        ((filenames.map normPath).filter (fun f =>
          ((stringToList skipVars).map pyLower).contains (categoryOf f)))) ∧
    ∀ f ∈ filenames.map normPath,
      ((stringToList skipVars).map pyLower).contains (categoryOf f) = true →
        ∀ res, simpleFilenameFilter filenames pre suf includeP excludeP
          skipVars (some ts) true useAll mock = .ok res → f ∈ res := by
  have hflt := exceptFilter_ok
    (simpleFilterOne (pre.getD "") (suf.getD "") (stringToList includeP)
      (stringToList excludeP) (some ts) useAll mock)
    (simplePassB (pre.getD "") (suf.getD "") (stringToList includeP)
      (stringToList excludeP) ts useAll mock)
    (filenames.map normPath)
    (fun x _ => simpleFilterOne_some _ _ _ _ _ _ _ x)
  have heq : simpleFilenameFilter filenames pre suf includeP excludeP
      skipVars (some ts) true useAll mock =
      .ok (((filenames.map normPath).filter
          (simplePassB (pre.getD "") (suf.getD "") (stringToList includeP)
            (stringToList excludeP) ts useAll mock)) ++
        ((filenames.map normPath).filter (fun f =>
          ((stringToList skipVars).map pyLower).contains (categoryOf f)))) := by
    simp only [simpleFilenameFilter, if_true, hflt, if_pos hskip]
  refine ⟨heq, fun f hf hcat res hres => ?_⟩
  rw [heq] at hres
  rw [← Except.ok.inj hres]
  refine List.mem_append.mpr (Or.inr ?_)
  exact List.mem_filter.mpr ⟨hf, hcat⟩

/-- C8 (witness): the file of category t2m that fails the timestep
check still appears in the output through the bypass list, and the
output is the stated concatenation. -/
theorem C8_bypass_escape_hatch_witness :
    simpleFilenameFilter ["relhum/f_000_x", "t2m/n"] none none .noneV .noneV
        (.list ["t2m"]) (some ["_000_"]) true true false =
      .ok (((["relhum/f_000_x", "t2m/n"].map normPath).filter
          (simplePassB "" "" [] [] ["_000_"] true false)) ++
        ((["relhum/f_000_x", "t2m/n"].map normPath).filter (fun f =>
          ((["t2m"] : List String).map pyLower).contains (categoryOf f)))) ∧
    ∀ res, simpleFilenameFilter ["relhum/f_000_x", "t2m/n"] none none .noneV
        .noneV (.list ["t2m"]) (some ["_000_"]) true true false = .ok res →
      "t2m/n" ∈ res := by
  have h := C8_bypass_escape_hatch ["relhum/f_000_x", "t2m/n"] none none
    .noneV .noneV (.list ["t2m"]) ["_000_"] true false (by decide)
  exact ⟨h.1, h.2 "t2m/n" (by decide) (by decide)⟩

/-! ## C9 -/

theorem exceptFilter_error {α : Type} (f : α → Except PyErr Bool)
    (e : PyErr) :
    ∀ l : List α, (∀ x ∈ l, f x = .error e ∨ f x = .ok false) →
      (∃ x ∈ l, f x = .error e) → exceptFilter f l = .error e
  | [], _, hex => absurd hex (by simp)
  | x :: xs, hall, hex => by
    rcases hall x (List.mem_cons_self x xs) with herr | hok
    · simp [exceptFilter, herr]
    · have hex2 : ∃ y ∈ xs, f y = .error e := by
        obtain ⟨y, hy, hfy⟩ := hex
        rcases List.mem_cons.mp hy with rfl | hy2
        · rw [hok] at hfy
          cases hfy
        · exact ⟨y, hy2, hfy⟩
      have hrec := exceptFilter_error f e xs
        (fun y hy => hall y (List.mem_cons_of_mem x hy)) hex2
      simp [exceptFilter, hok, hrec]

theorem simpleFilterOne_noneTs (pre suf : String)
    (includeL excludeL : List String) (useAll : Bool) (f : String) :
    simpleFilterOne pre suf includeL excludeL none useAll false f =
      if pyStartsWith f pre ∧ pyEndsWith f suf
          ∧ switchablePatternCheck f includeL useAll
      then .error (.typeError iterNoneMsg) else .ok false := by
  unfold simpleFilterOne mockTimeSteps
  split
  · rfl
  · rfl

/-- C9 (counterexample): OSDownloader.download never reaches its simple
filter call: for every input it first raises the TypeError of the
keyword-mismatched _process_timesteps call, which is a different
TypeError from the claimed iteration over None; the latter does occur
when the filter itself is called with timesteps None. -/
theorem C9_counterexample :
    osDownloadFilterPipeline ["relhum/a_000_x.grib"] none none .noneV .noneV
        .noneV (.vint 0) (.vint 0) none none =
      .error (.typeError kwargMsg) ∧
    kwargMsg ≠ iterNoneMsg ∧
    simpleFilenameFilter ["relhum/a_000_x.grib"] none none .noneV .noneV
        .noneV none true true false = .error (.typeError iterNoneMsg) := by
  refine ⟨rfl, by decide, by decide⟩

/-- C9 (amended): the simple filter is indeed not total: with timesteps
None, the bypass flag unset and some filename passing the prefix, suffix
and include checks, it raises the iteration TypeError; the object-store
downloader DOES pass no timesteps argument at its filter call site, but
that call is unreachable, because download always fails first inside
_process_timesteps with the unexpected-keyword TypeError. -/
theorem C9_filter_none_not_total (filenames : List String)
    (pre suf : Option String) (includeP excludeP skipVars : StrOrList)
    (useAll : Bool) (x : String) (hx : x ∈ filenames)
    (hpass : pyStartsWith (normPath x) (pre.getD "") = true ∧
      pyEndsWith (normPath x) (suf.getD "") = true ∧
      switchablePatternCheck (normPath x) (stringToList includeP) useAll
        = true) :
    simpleFilenameFilter filenames pre suf includeP excludeP skipVars none
        true useAll false = .error (.typeError iterNoneMsg) ∧
    ∀ (remoteFiles : List String) (rp sfx : Option String)
      (ip ep sv : StrOrList) (mi mx : PyVal)
      (ap : Option (List (String × List Int))) (va : Option (List String)),
      osDownloadFilterPipeline remoteFiles rp sfx ip ep sv mi mx ap va =
        .error (.typeError kwargMsg) := by
  constructor
  · have hall : ∀ y ∈ filenames.map normPath,
        simpleFilterOne (pre.getD "") (suf.getD "") (stringToList includeP)
            (stringToList excludeP) none useAll false y =
          .error (.typeError iterNoneMsg) ∨
        simpleFilterOne (pre.getD "") (suf.getD "") (stringToList includeP)
            (stringToList excludeP) none useAll false y = .ok false := by
      intro y _
      rw [simpleFilterOne_noneTs]
      split
      · exact Or.inl rfl
      · exact Or.inr rfl
    have hex : ∃ y ∈ filenames.map normPath,
        simpleFilterOne (pre.getD "") (suf.getD "") (stringToList includeP)
            (stringToList excludeP) none useAll false y =
          .error (.typeError iterNoneMsg) := by
      refine ⟨normPath x, List.mem_map_of_mem normPath hx, ?_⟩
      rw [simpleFilterOne_noneTs]
      rw [if_pos ⟨hpass.1, hpass.2.1, hpass.2.2⟩]
    have herr := exceptFilter_error _ (.typeError iterNoneMsg)
      (filenames.map normPath) hall hex
    simp only [simpleFilenameFilter, if_true, herr]
  · intro remoteFiles rp sfx ip ep sv mi mx ap va
    rfl

/-- C9 (witness for the amended theorem): a one-element filename list
whose element passes the vacuous prefix, suffix and include checks. -/
theorem C9_filter_none_not_total_witness :
    simpleFilenameFilter ["a"] none none .noneV .noneV .noneV none
        true true false = .error (.typeError iterNoneMsg) ∧
    osDownloadFilterPipeline ["a"] none none .noneV .noneV .noneV
        (.vint 0) (.vint 48) none none = .error (.typeError kwargMsg) := by
  have h := C9_filter_none_not_total ["a"] none none .noneV .noneV .noneV
    true "a" (by decide) ⟨by decide, by decide, by decide⟩
  exact ⟨h.1, h.2 ["a"] none none .noneV .noneV .noneV (.vint 0) (.vint 48)
    none none⟩

end DW
